import Mathlib

/-!
# Verification of the pycroscopy ASC translator tutorial pipeline

Shallow embedding of `examples/plot_translator_tutorial.py`:
* the header parser (the `parm_dict` loop over `string_lines[3:17]`),
* the grid reader (the `raw_data_2d` loop over `num_pos` lines starting
  at the hardcoded 403-line header offset),
* the spectroscopic axis (`volt_vec = np.linspace(-1 * max_v, 1 * max_v,
  spectra_length)`),
* the position-value axis of the `NumpyTranslator` (not part of this
  repository's sources; modelled from the spec where needed).

Python strings are modelled as their character sequences (`List Char`);
Python floats are modelled as exact rationals (`ℚ`), and `np.float32`
conversion is modelled as exact.  Python exceptions are modelled by the
result type `PRes`, with one error tag per exception class actually
reachable in the translated fragment.
-/

/-- A Python string, modelled as its sequence of characters. -/
abbrev Str : Type := List Char

/-- The Python exception classes reachable in the translated fragment:
`IndexError` (list subscript out of range), `ValueError` (failed numeric
conversion or shape-mismatched numpy assignment), `KeyError` (missing
dict key). -/
inductive PyErr : Type
  | indexError : PyErr
  | valueError : PyErr
  | keyError : PyErr
  deriving DecidableEq, Repr

/-- Result of a Python computation: a value, or a raised exception. -/
inductive PRes (α : Type) : Type
  | ok (a : α) : PRes α
  | err (e : PyErr) : PRes α
  deriving DecidableEq, Repr

/-- A value stored in `parm_dict`: after the `try: float(...)` coercion a
value is an `int`, a `float`, or the original `str`. -/
inductive HVal : Type
  | int (n : ℤ) : HVal
  | float (q : ℚ) : HVal
  | str (s : Str) : HVal
  deriving DecidableEq, Repr

/-- The whitespace characters removed by Python's `str.strip()`. -/
def isPySpace (c : Char) : Bool :=
  c == ' ' || c == '\t' || c == '\n' || c == '\r' || c == '\x0b' || c == '\x0c'

/-- Python `s.strip()`: remove leading and trailing whitespace. -/
def pyStrip (s : Str) : Str :=
  ((s.dropWhile isPySpace).reverse.dropWhile isPySpace).reverse

/-- Fuel-driven scanner for Python `str.split(sep)` with non-empty `sep`:
cut at each left-most occurrence of `sep`.  The fuel is the length of the
scanned text, which suffices since every step consumes at least one
character. -/
def splitAux (sep : Str) : ℕ → Str → Str → List Str
  | _, [], acc => [acc.reverse]
  | 0, s, acc => [acc.reverse ++ s]
  | fuel + 1, c :: rest, acc =>
    if sep.isPrefixOf (c :: rest) then
      acc.reverse :: splitAux sep fuel ((c :: rest).drop sep.length) []
    else
      splitAux sep fuel rest (c :: acc)

/-- Python `s.split(sep)` for a non-empty separator. -/
def pySplit (s sep : Str) : List Str := splitAux sep s.length s []

/-- Fuel-driven scanner for Python `str.replace(pat, repl)` with
non-empty `pat`: replace left-most occurrences, left to right,
non-overlapping. -/
def replaceAux (pat repl : Str) : ℕ → Str → Str
  | _, [] => []
  | 0, s => s
  | fuel + 1, c :: rest =>
    if pat.isPrefixOf (c :: rest) then
      repl ++ replaceAux pat repl fuel ((c :: rest).drop pat.length)
    else
      c :: replaceAux pat repl fuel rest

/-- Python `s.replace(pat, repl)` for a non-empty pattern. -/
def pyReplace (s pat repl : Str) : Str := replaceAux pat repl s.length s

/-- Numeric value of a digit string, base 10. -/
def digitsVal (s : Str) : ℕ :=
  s.foldl (fun a c => 10 * a + (c.toNat - 48)) 0

/-- `s` is nonempty and all decimal digits. -/
def isDigits (s : Str) : Bool :=
  !s.isEmpty && s.all (·.isDigit)

/-- Python `int(s)` on plain decimal integer literals: an optional sign
and digits.  Returns `none` where Python raises `ValueError`. -/
def pyIntStr? (s : Str) : Option ℤ :=
  match s with
  | '-' :: t => if isDigits t then some (-(digitsVal t : ℤ)) else none
  | '+' :: t => if isDigits t then some (digitsVal t : ℤ) else none
  | _ => if isDigits s then some (digitsVal s : ℤ) else none

/-- Python `float(s)` (also numpy's float32 token conversion), modelled
exactly in `ℚ`: surrounding whitespace is ignored; then an optional sign,
a decimal mantissa `digits`, `digits.digits`, `digits.` or `.digits`, and
an optional case-insensitive exponent `e[+-]digits`.  (The `inf`/`nan`
and underscore-separator forms accepted by Python's `float` are outside
the model; no input considered here uses them.)  Returns `none` where
Python raises `ValueError`. -/
def pyFloat? (s : Str) : Option ℚ :=
  let t := pyStrip s
  let (sign, body) : ℤ × Str :=
    match t with
    | '-' :: r => (-1, r)
    | '+' :: r => (1, r)
    | _ => (1, t)
  let body := body.map (fun c => if c = 'E' then 'e' else c)
  let withExp : Option (Str × ℤ) :=
    match pySplit body ['e'] with
    | [m] => some (m, 0)
    | [m, x] =>
      match pyIntStr? x with
      | some e => some (m, e)
      | none => none
    | _ => none
  match withExp with
  | none => none
  | some (m, e) =>
    let mant : Option (ℕ × ℕ) :=
      match pySplit m ['.'] with
      | [ip] => if isDigits ip then some (digitsVal ip, 0) else none
      | [ip, fp] =>
        if ip.all (·.isDigit) && fp.all (·.isDigit) && !(ip.isEmpty && fp.isEmpty) then
          some (digitsVal ip * 10 ^ fp.length + digitsVal fp, fp.length)
        else none
      | _ => none
    match mant with
    | none => none
    | some (n, d) =>
      some (Rat.divInt (sign * ((n * 10 ^ e.toNat : ℕ) : ℤ))
        ((10 ^ d * 10 ^ (-e).toNat : ℕ) : ℤ))

/-- Python `int(q)` on a float value: truncation toward zero.  For an
exact rational this is `q.num / q.den` with `Int` (T-)division. -/
def pyIntOfFloat (q : ℚ) : ℤ := q.num / q.den

/-- The value coercion of the header loop:
`test = temp[1].strip(); try: test = float(test);
if test % 1 == 0: test = int(test); except ValueError: pass`.
For a Python float `t`, `t % 1 == 0` holds iff the fractional part is
exactly zero, i.e. iff the exact rational has denominator 1, in which
case `int(t)` is its numerator. -/
def coerceValue (s : Str) : HVal :=
  match pyFloat? s with
  | some q => if q.den = 1 then .int q.num else .float q
  | none => .str s

/-- The cleaning step of the header loop on a raw line:
`line = line.replace('# ', '').replace('\n', '')`. -/
def cleanedLine (line : Str) : Str :=
  pyReplace (pyReplace line ['#', ' '] []) ['\n'] []

/-- Splitting and storing one cleaned header line (see `cleanedLine`):
`temp = line.split('='); test = temp[1].strip(); ...;
parm_dict[temp[0].strip()] = test`.  `temp[1]` raises `IndexError` when
the cleaned line has no `=`. -/
def parseHeaderLine (line : Str) : PRes (Str × HVal) :=
  let temp := pySplit (cleanedLine line) ['=']
  match temp[1]? with
  | none => .err .indexError
  | some v => .ok (pyStrip (temp.headD []), coerceValue (pyStrip v))

/-- Python `dict` assignment `d[k] = v`: replace the value in place when
the key is present, otherwise append the new binding. -/
def dictInsert (d : List (Str × HVal)) (k : Str) (v : HVal) :
    List (Str × HVal) :=
  if d.any (fun p => p.1 = k) then
    d.map (fun p => if p.1 = k then (k, v) else p)
  else d ++ [(k, v)]

/-- The header loop body folded over a list of raw lines, starting from
the dict `d`. -/
def parmDictAux (d : List (Str × HVal)) : List Str → PRes (List (Str × HVal))
  | [] => .ok d
  | l :: rest =>
    match parseHeaderLine l with
    | .err e => .err e
    | .ok (k, v) => parmDictAux (dictInsert d k v) rest

/-- The lines the header loop ranges over: `string_lines[3:17]`. -/
def headerLines (string_lines : List Str) : List Str :=
  (string_lines.drop 3).take 14

/-- `parm_dict`: the dictionary built by the header loop over
`string_lines[3:17]`. -/
def parm_dict (string_lines : List Str) : PRes (List (Str × HVal)) :=
  parmDictAux [] (headerLines string_lines)

/-- `num_headers = 403` (hardcoded in the script). -/
def num_headers : ℕ := 403

/-- One grid row's tokens:
`string_spectrum = this_line.split('\t')[:-1]  # omitting the new line`. -/
def string_spectrum (l : Str) : List Str := (pySplit l ['\t']).dropLast

/-- `np.array(tokens, dtype=np.float32)`: convert every token, failing on
the first non-numeric one. -/
def mapOpt {α β : Type} (f : α → Option β) : List α → Option (List β)
  | [] => some []
  | a :: as =>
    match f a with
    | none => none
    | some b =>
      match mapOpt f as with
      | none => none
      | some bs => some (b :: bs)

/-- The numpy row assignment `raw_data_2d[line_ind] = arr` for a
1-D `arr`: the converted values are stored when their count equals the
allocated `spectra_length`; a shape-`(1,)` array is broadcast across the
whole row, so a single value fills the row; any other shape mismatch
raises `ValueError`. -/
def rowAssign (specLen : ℕ) (vals : List ℚ) : PRes (List ℚ) :=
  if vals.length = specLen then .ok vals
  else
    match vals with
    | [v] => .ok (List.replicate specLen v)
    | _ => .err .valueError

/-- Parsing and storing one grid row:
`raw_data_2d[line_ind] = np.array(string_spectrum, dtype=np.float32)`.
`np.array(..., float32)` raises `ValueError` on a non-numeric token; the
assignment then follows `rowAssign`. -/
def readRow (l : Str) (specLen : ℕ) : PRes (List ℚ) :=
  match mapOpt pyFloat? (string_spectrum l) with
  | none => .err .valueError
  | some vals => rowAssign specLen vals

/-- The grid loop, reading `lines[idx]`, `lines[idx + 1]`, … for `k`
iterations; `lines[i]` out of range raises `IndexError`. -/
def readGridFrom (lines : List Str) (specLen : ℕ) : ℕ → ℕ → PRes (List (List ℚ))
  | _, 0 => .ok []
  | idx, k + 1 =>
    match lines[idx]? with
    | none => .err .indexError
    | some l =>
      match readRow l specLen with
      | .err e => .err e
      | .ok row =>
        match readGridFrom lines specLen (idx + 1) k with
        | .err e => .err e
        | .ok rest => .ok (row :: rest)

/-- `raw_data_2d`: `for line_ind in range(num_pos):
this_line = string_lines[num_headers + line_ind]; ...`. -/
def raw_data_2d (string_lines : List Str) (num_pos spectra_length : ℕ) :
    PRes (List (List ℚ)) :=
  readGridFrom string_lines spectra_length num_headers num_pos

/-- `np.linspace(a, b, n)`: `n` evenly spaced values from `a` to `b`
inclusive (`n = 1` gives `[a]`, `n = 0` gives `[]`), modelled exactly in
`ℚ`. -/
def linspace (a b : ℚ) : ℕ → List ℚ
  | 0 => []
  | 1 => [a]
  | n + 2 =>
      (List.range (n + 2)).map (fun i : ℕ => a + (i : ℚ) * ((b - a) / (((n + 2 : ℕ) : ℚ) - 1)))

/-- `volt_vec = np.linspace(-1 * max_v, 1 * max_v, spectra_length)`. -/
def volt_vec (maxV : ℚ) (spectra_length : ℕ) : List ℚ :=
  linspace (-1 * maxV) (1 * maxV) spectra_length

/-- Modelled from the spec: the `Position_Values` dataset written by
`px.io.NumpyTranslator.translate` (the `NumpyTranslator` class is not
part of this repository's sources).  Per the spec's Axis Builder, linear
index `i` maps to `row = i / num_cols`, `col = i % num_cols`, with
physical coordinates `x = col * scan_width / (num_cols - 1)` and
`y = row * scan_height / (num_rows - 1)`, degenerating to zero when the
corresponding count is 1. -/
def position_values (numRows numCols : ℕ) (scanW scanH : ℚ) : List (ℚ × ℚ) :=
  (List.range (numRows * numCols)).map (fun i =>
    ((if numCols = 1 then 0 else ((i % numCols : ℕ) : ℚ) * (scanW / ((numCols : ℚ) - 1))),
     (if numRows = 1 then 0 else ((i / numCols : ℕ) : ℚ) * (scanH / ((numRows : ℚ) - 1)))))

/-- Python `int(parm_dict[k])`: `KeyError` on a missing key; `int` of a
stored float truncates toward zero; `int` of a stored string parses a
(stripped) decimal integer literal and raises `ValueError` otherwise. -/
def dictLookupInt (d : List (Str × HVal)) (k : Str) : PRes ℤ :=
  match d.lookup k with
  | none => .err .keyError
  | some (.int n) => .ok n
  | some (.float q) => .ok (pyIntOfFloat q)
  | some (.str s) =>
    match pyIntStr? (pyStrip s) with
    | some n => .ok n
    | none => .err .valueError

/-- The translation pipeline up to the three persisted data contents:
the header parse, the parameter reads `num_rows = int(parm_dict['y-pixels'])`,
`num_cols = int(parm_dict['x-pixels'])`, `spectra_length = int(parm_dict['z-points'])`,
the grid read, and the two coordinate axes (`Raw_Data`, `Position_Values`,
`Spectroscopic_Values`).  `num_pos = num_rows * num_cols` is computed in
`ℤ` as in Python; `np.zeros((num_pos, spectra_length))` raises
`ValueError` when either dimension is negative, before any row is read
(and before `np.linspace` could see a negative count). -/
def pipeline (string_lines : List Str) (maxV scanH scanW : ℚ) :
    PRes (List (List ℚ) × List (ℚ × ℚ) × List ℚ) :=
  match parm_dict string_lines with
  | .err e => .err e
  | .ok pd =>
    match dictLookupInt pd "y-pixels".data with
    | .err e => .err e
    | .ok nr =>
      match dictLookupInt pd "x-pixels".data with
      | .err e => .err e
      | .ok nc =>
        match dictLookupInt pd "z-points".data with
        | .err e => .err e
        | .ok zp =>
          if nr * nc < 0 ∨ zp < 0 then .err .valueError
          else
            match raw_data_2d string_lines (nr * nc).toNat zp.toNat with
            | .err e => .err e
            | .ok g =>
              .ok (g, position_values nr.toNat nc.toNat scanW scanH, volt_vec maxV zp.toNat)

/-- Proof-vehicle reformulation of the grid loop: the same computation as
`readGridFrom`, recursing structurally on the list of lines still to be
read (`readGridFrom_eq_list` below proves the equivalence). -/
def readGridList (specLen : ℕ) : List Str → ℕ → PRes (List (List ℚ))
  | _, 0 => .ok []
  | [], _ + 1 => .err .indexError
  | l :: rest, k + 1 =>
    match readRow l specLen with
    | .err e => .err e
    | .ok row =>
      match readGridList specLen rest k with
      | .err e => .err e
      | .ok g => .ok (row :: g)

/-- Proof-vehicle reformulation of the header loop's line parses: the
sequence of `(key, coerced value)` pairs produced line by line, failing
at the first line whose parse raises. -/
def parseHeaderLines : List Str → PRes (List (Str × HVal))
  | [] => .ok []
  | l :: rest =>
    match parseHeaderLine l with
    | .err e => .err e
    | .ok p =>
      match parseHeaderLines rest with
      | .err e => .err e
      | .ok ps => .ok (p :: ps)

/-- The dict produced by inserting a sequence of `(key, value)` pairs in
order, starting from `d`. -/
def dictOfPairs (d : List (Str × HVal)) (ps : List (Str × HVal)) : List (Str × HVal) :=
  ps.foldl (fun d p => dictInsert d p.1 p.2) d

/-! ### Helper lemmas -/

lemma mapOpt_some_length {α β : Type} {f : α → Option β} :
    ∀ {xs : List α} {ys : List β}, mapOpt f xs = some ys → ys.length = xs.length := by
  intro xs
  induction xs with
  | nil => intro ys h; cases h; rfl
  | cons a as ih =>
    intro ys h
    unfold mapOpt at h
    rcases ha : f a with _ | b <;> rw [ha] at h
    · cases h
    · rcases hr : mapOpt f as with _ | bs <;> rw [hr] at h
      · cases h
      · cases h
        simp [ih hr]

lemma mapOpt_some_getElem? {α β : Type} {f : α → Option β} :
    ∀ {xs : List α} {ys : List β}, mapOpt f xs = some ys → ∀ j : ℕ,
      ys[j]? = xs[j]?.bind f := by
  intro xs
  induction xs with
  | nil => intro ys h j; cases h; rfl
  | cons a as ih =>
    intro ys h j
    unfold mapOpt at h
    rcases ha : f a with _ | b <;> rw [ha] at h
    · cases h
    · rcases hr : mapOpt f as with _ | bs <;> rw [hr] at h
      · cases h
      · cases h
        cases j with
        | zero => simp [ha]
        | succ j => simpa using ih hr j

lemma mapOpt_mem {α β : Type} {f : α → Option β} :
    ∀ {xs : List α} {ys : List β}, mapOpt f xs = some ys →
      ∀ y ∈ ys, ∃ x ∈ xs, f x = some y := by
  intro xs
  induction xs with
  | nil =>
    intro ys h y hy
    cases h
    simp at hy
  | cons a as ih =>
    intro ys h y hy
    unfold mapOpt at h
    rcases ha : f a with _ | b <;> rw [ha] at h
    · cases h
    · rcases hr : mapOpt f as with _ | bs <;> rw [hr] at h
      · cases h
      · cases h
        rcases List.mem_cons.mp hy with rfl | htl
        · exact ⟨a, List.mem_cons_self a as, ha⟩
        · obtain ⟨x, hx, hfx⟩ := ih hr y htl
          exact ⟨x, List.mem_cons_of_mem a hx, hfx⟩

lemma readRow_none_eq {l : Str} {specLen : ℕ}
    (hm : mapOpt pyFloat? (string_spectrum l) = none) :
    readRow l specLen = .err .valueError := by
  unfold readRow
  rw [hm]

lemma readRow_some_eq {l : Str} {specLen : ℕ} {vs : List ℚ}
    (hm : mapOpt pyFloat? (string_spectrum l) = some vs) :
    readRow l specLen = rowAssign specLen vs := by
  unfold readRow
  rw [hm]

lemma readRow_ok_length {l : Str} {specLen : ℕ} {vals : List ℚ}
    (h : readRow l specLen = .ok vals) : vals.length = specLen := by
  rcases hm : mapOpt pyFloat? (string_spectrum l) with _ | vs
  · rw [readRow_none_eq hm] at h
    cases h
  · rw [readRow_some_eq hm] at h
    unfold rowAssign at h
    by_cases hl : vs.length = specLen
    · rw [if_pos hl] at h
      injection h with hv
      rw [← hv, hl]
    · rw [if_neg hl] at h
      rcases vs with _ | ⟨v, _ | ⟨w, rest⟩⟩
      · cases h
      · injection h with hv
        rw [← hv, List.length_replicate]
      · cases h

lemma readRow_ok_cases {l : Str} {specLen : ℕ} {vals : List ℚ}
    (h : readRow l specLen = .ok vals) :
    ∃ vs, mapOpt pyFloat? (string_spectrum l) = some vs ∧
      (vals = vs ∨ ∃ v, vs = [v] ∧ vals = List.replicate specLen v) := by
  rcases hm : mapOpt pyFloat? (string_spectrum l) with _ | vs
  · rw [readRow_none_eq hm] at h
    cases h
  · rw [readRow_some_eq hm] at h
    unfold rowAssign at h
    refine ⟨vs, rfl, ?_⟩
    by_cases hl : vs.length = specLen
    · rw [if_pos hl] at h
      injection h with hv
      exact Or.inl hv.symm
    · rw [if_neg hl] at h
      rcases vs with _ | ⟨v, _ | ⟨w, rest⟩⟩
      · cases h
      · injection h with hv
        exact Or.inr ⟨v, rfl, hv.symm⟩
      · cases h

lemma readRow_err_eq {l : Str} {specLen : ℕ} {e : PyErr}
    (h : readRow l specLen = .err e) : e = .valueError := by
  rcases hm : mapOpt pyFloat? (string_spectrum l) with _ | vs
  · rw [readRow_none_eq hm] at h
    cases h
    rfl
  · rw [readRow_some_eq hm] at h
    unfold rowAssign at h
    by_cases hl : vs.length = specLen
    · rw [if_pos hl] at h
      cases h
    · rw [if_neg hl] at h
      rcases vs with _ | ⟨v, _ | ⟨w, rest⟩⟩
      · cases h; rfl
      · cases h
      · cases h; rfl

lemma readRow_err_of_bad {l : Str} {specLen : ℕ}
    (h : mapOpt pyFloat? (string_spectrum l) = none ∨
      ∃ vs, mapOpt pyFloat? (string_spectrum l) = some vs ∧
        vs.length ≠ specLen ∧ vs.length ≠ 1) :
    readRow l specLen = .err .valueError := by
  rcases h with h | ⟨vs, hvs, hne, hone⟩
  · exact readRow_none_eq h
  · rw [readRow_some_eq hvs]
    unfold rowAssign
    rw [if_neg hne]
    rcases vs with _ | ⟨v, _ | ⟨w, rest⟩⟩
    · rfl
    · simp at hone
    · rfl

lemma readRow_broadcast {l : Str} {v : ℚ} (specLen : ℕ)
    (h : mapOpt pyFloat? (string_spectrum l) = some [v]) :
    readRow l specLen = .ok (List.replicate specLen v) := by
  rw [readRow_some_eq h]
  unfold rowAssign
  by_cases hl : ([v] : List ℚ).length = specLen
  · rw [if_pos hl]
    simp only [List.length_singleton] at hl
    rw [← hl]
    rfl
  · rw [if_neg hl]

lemma readGridFrom_eq_list (lines : List Str) (specLen : ℕ) :
    ∀ (k idx : ℕ), readGridFrom lines specLen idx k = readGridList specLen (lines.drop idx) k := by
  intro k
  induction k with
  | zero =>
    intro idx
    cases lines.drop idx <;> rfl
  | succ k ih =>
    intro idx
    rcases hd : lines.drop idx with _ | ⟨l, rest⟩
    · have h1 : lines[idx]? = none := by
        rw [← List.head?_drop, hd]; rfl
      unfold readGridFrom readGridList
      rw [h1]
    · have h1 : lines[idx]? = some l := by
        rw [← List.head?_drop, hd]; rfl
      have h2 : lines.drop (idx + 1) = rest := by
        rw [← List.tail_drop, hd]; rfl
      unfold readGridFrom readGridList
      rw [h1, ih (idx + 1), h2]

lemma raw_data_2d_eq_list (string_lines : List Str) (num_pos specLen : ℕ) :
    raw_data_2d string_lines num_pos specLen
      = readGridList specLen (string_lines.drop num_headers) num_pos :=
  readGridFrom_eq_list string_lines specLen num_pos num_headers

lemma readGridList_ok_shape {specLen : ℕ} :
    ∀ {data : List Str} {k : ℕ} {g : List (List ℚ)},
      readGridList specLen data k = .ok g →
      g.length = k ∧ ∀ r ∈ g, r.length = specLen := by
  intro data
  induction data with
  | nil =>
    intro k g h
    cases k with
    | zero => cases h; simp
    | succ k => cases h
  | cons l rest ih =>
    intro k g h
    cases k with
    | zero => cases h; simp
    | succ k =>
      unfold readGridList at h
      rcases hr : readRow l specLen with row | e <;> rw [hr] at h
      · rcases hg : readGridList specLen rest k with g' | e <;> rw [hg] at h
        · cases h
          obtain ⟨hlen, hrows⟩ := ih hg
          refine ⟨by simp [hlen], ?_⟩
          intro r hrmem
          rcases List.mem_cons.mp hrmem with hhd | htl
          · rw [hhd]; exact readRow_ok_length hr
          · exact hrows r htl
        · cases h
      · cases h

lemma readGridList_short {specLen : ℕ} :
    ∀ {data : List Str} {k : ℕ},
      (∀ l ∈ data, ∃ r, readRow l specLen = .ok r) → data.length < k →
      readGridList specLen data k = .err .indexError := by
  intro data
  induction data with
  | nil =>
    intro k _ hk
    cases k with
    | zero => simp at hk
    | succ k => rfl
  | cons l rest ih =>
    intro k hok hk
    cases k with
    | zero => simp at hk
    | succ k =>
      obtain ⟨r, hr⟩ := hok l (List.mem_cons_self l rest)
      unfold readGridList
      rw [hr, ih (fun x hx => hok x (List.mem_cons_of_mem l hx)) (by simpa using hk)]

lemma readGridList_badrow {specLen : ℕ} :
    ∀ {data : List Str} {k : ℕ},
      k ≤ data.length → (∃ l ∈ data.take k, readRow l specLen = .err .valueError) →
      readGridList specLen data k = .err .valueError := by
  intro data
  induction data with
  | nil =>
    intro k hk hbad
    simp at hbad
  | cons l rest ih =>
    intro k hk hbad
    cases k with
    | zero => simp at hbad
    | succ k =>
      unfold readGridList
      rcases hr : readRow l specLen with row | e
      · have hbad' : ∃ x ∈ rest.take k, readRow x specLen = .err .valueError := by
          rcases hbad with ⟨x, hxmem, hxbad⟩
          rw [List.take_succ_cons] at hxmem
          rcases List.mem_cons.mp hxmem with rfl | hxtl
          · rw [hr] at hxbad; cases hxbad
          · exact ⟨x, hxtl, hxbad⟩
        rw [ih (by simpa using hk) hbad']
      · rw [readRow_err_eq hr]

lemma readGridList_ok_map (specLen : ℕ) (f : Str → List ℚ) :
    ∀ (data : List Str) (k : ℕ),
      k ≤ data.length → (∀ l ∈ data.take k, readRow l specLen = .ok (f l)) →
      readGridList specLen data k = .ok ((data.take k).map f) := by
  intro data
  induction data with
  | nil =>
    intro k hk _
    cases k with
    | zero => rfl
    | succ k => simp at hk
  | cons l rest ih =>
    intro k hk hok
    cases k with
    | zero => rfl
    | succ k =>
      unfold readGridList
      have hl : readRow l specLen = .ok (f l) := by
        apply hok
        rw [List.take_succ_cons]
        exact List.mem_cons_self l _
      have hrest : ∀ x ∈ rest.take k, readRow x specLen = .ok (f x) := by
        intro x hx
        apply hok
        rw [List.take_succ_cons]
        exact List.mem_cons_of_mem l hx
      rw [hl, ih k (by simpa using hk) hrest]
      simp

lemma parseHeaderLine_err_eq {line : Str} {e : PyErr}
    (h : parseHeaderLine line = .err e) : e = .indexError := by
  simp only [parseHeaderLine] at h
  rcases hm : (pySplit (cleanedLine line) ['='])[1]? with _ | v <;> rw [hm] at h
  · cases h; rfl
  · cases h

lemma parseHeaderLine_err_of_no_eq {line : Str}
    (h : (pySplit (cleanedLine line) ['=']).length = 1) :
    parseHeaderLine line = .err .indexError := by
  have hnone : (pySplit (cleanedLine line) ['='])[1]? = none :=
    List.getElem?_eq_none (by omega)
  simp only [parseHeaderLine]
  rw [hnone]

lemma parmDictAux_err_of_mem :
    ∀ {L : List Str} {d : List (Str × HVal)},
      (∃ l ∈ L, parseHeaderLine l = .err .indexError) →
      parmDictAux d L = .err .indexError := by
  intro L
  induction L with
  | nil => intro d h; simp at h
  | cons a rest ih =>
    intro d h
    unfold parmDictAux
    rcases hp : parseHeaderLine a with ⟨k, v⟩ | e
    · rcases h with ⟨x, hxmem, hxbad⟩
      rcases List.mem_cons.mp hxmem with rfl | hxtl
      · rw [hp] at hxbad; cases hxbad
      · exact ih ⟨x, hxtl, hxbad⟩
    · rw [parseHeaderLine_err_eq hp]

lemma parmDictAux_eq_parseHeaderLines :
    ∀ (L : List Str) (d : List (Str × HVal)),
      parmDictAux d L = match parseHeaderLines L with
        | .err e => .err e
        | .ok ps => .ok (dictOfPairs d ps) := by
  intro L
  induction L with
  | nil => intro d; rfl
  | cons a rest ih =>
    intro d
    rcases hp : parseHeaderLine a with ⟨k, v⟩ | e
    · have h1 : parmDictAux d (a :: rest) = parmDictAux (dictInsert d k v) rest := by
        conv_lhs => rw [parmDictAux]
        rw [hp]
      have h2 : parseHeaderLines (a :: rest)
          = match parseHeaderLines rest with
            | .err e => .err e
            | .ok ps => .ok ((k, v) :: ps) := by
        conv_lhs => rw [parseHeaderLines]
        rw [hp]
      rw [h1, h2, ih]
      rcases hr : parseHeaderLines rest with ps | e <;> rfl
    · have h1 : parmDictAux d (a :: rest) = .err e := by
        conv_lhs => rw [parmDictAux]
        rw [hp]
      have h2 : parseHeaderLines (a :: rest) = .err e := by
        conv_lhs => rw [parseHeaderLines]
        rw [hp]
      rw [h1, h2]

lemma lookup_cons (a : Str) (p : Str × HVal) (es : List (Str × HVal)) :
    List.lookup a (p :: es) = if a = p.1 then some p.2 else List.lookup a es := by
  rcases p with ⟨k, b⟩
  by_cases h : a = k
  · have hb : (a == k) = true := beq_iff_eq.mpr h
    simp [List.lookup, hb, h]
  · have hb : (a == k) = false := beq_eq_false_iff_ne.mpr h
    simp [List.lookup, hb, h]

lemma lookup_append (k : Str) :
    ∀ (xs ys : List (Str × HVal)),
      List.lookup k (xs ++ ys) = (List.lookup k xs).orElse (fun _ => List.lookup k ys) := by
  intro xs ys
  induction xs with
  | nil => rfl
  | cons p rest ih =>
    rw [List.cons_append, lookup_cons, lookup_cons]
    by_cases h : k = p.1
    · simp [h, Option.orElse]
    · simp [h, ih]

lemma lookup_none_of_any_eq_false (k : Str) :
    ∀ {d : List (Str × HVal)}, d.any (fun p => p.1 = k) = false →
      List.lookup k d = none := by
  intro d
  induction d with
  | nil => intro _; rfl
  | cons p rest ih =>
    intro h
    simp only [List.any_cons, Bool.or_eq_false_iff] at h
    have hne : ¬ k = p.1 := by
      intro hk
      have h1 := h.1
      rw [hk] at h1
      simp at h1
    rw [lookup_cons, if_neg hne, ih h.2]

lemma lookup_map_replace_self (k' : Str) (v : HVal) :
    ∀ {d : List (Str × HVal)}, d.any (fun p => p.1 = k') = true →
      List.lookup k' (d.map (fun p => if p.1 = k' then (k', v) else p)) = some v := by
  intro d
  induction d with
  | nil => intro h; simp at h
  | cons p rest ih =>
    intro h
    by_cases hp : p.1 = k'
    · simp only [List.map_cons, if_pos hp]
      rw [lookup_cons, if_pos rfl]
    · simp only [List.any_cons, Bool.or_eq_true_iff] at h
      rcases h with h | h
      · simp [hp] at h
      · simp only [List.map_cons, if_neg hp]
        rw [lookup_cons, if_neg (fun hk => hp hk.symm), ih h]

lemma lookup_map_replace {k k' : Str} (v : HVal) (hne : k ≠ k') :
    ∀ (d : List (Str × HVal)),
      List.lookup k (d.map (fun p => if p.1 = k' then (k', v) else p)) = List.lookup k d := by
  intro d
  induction d with
  | nil => rfl
  | cons p rest ih =>
    by_cases hp : p.1 = k'
    · simp only [List.map_cons, if_pos hp]
      rw [lookup_cons, lookup_cons, if_neg hne, ih]
      rw [if_neg (fun hk => hne (hk.trans hp))]
    · simp only [List.map_cons, if_neg hp]
      rw [lookup_cons, lookup_cons, ih]

lemma lookup_dictInsert (k k' : Str) (v : HVal) (d : List (Str × HVal)) :
    List.lookup k (dictInsert d k' v) = if k = k' then some v else List.lookup k d := by
  unfold dictInsert
  by_cases hany : d.any (fun p => p.1 = k') = true
  · rw [if_pos hany]
    by_cases hk : k = k'
    · subst hk; rw [if_pos rfl, lookup_map_replace_self k v hany]
    · rw [if_neg hk, lookup_map_replace v hk d]
  · rw [if_neg hany, lookup_append]
    have hfalse : d.any (fun p => p.1 = k') = false := by
      cases hb : d.any (fun p => p.1 = k') with
      | true => exact absurd hb hany
      | false => rfl
    by_cases hk : k = k'
    · subst hk
      rw [lookup_none_of_any_eq_false k hfalse]
      simp [lookup_cons, Option.orElse]
    · rw [lookup_cons, if_neg hk]
      rcases hl : List.lookup k d with _ | val <;> simp [Option.orElse, hk]

lemma lookup_dictOfPairs (k : Str) :
    ∀ (ps : List (Str × HVal)) (d : List (Str × HVal)),
      List.lookup k (dictOfPairs d ps)
        = (List.lookup k ps.reverse).orElse (fun _ => List.lookup k d) := by
  intro ps
  induction ps with
  | nil => intro d; rfl
  | cons p rest ih =>
    intro d
    rw [show dictOfPairs d (p :: rest) = dictOfPairs (dictInsert d p.1 p.2) rest from rfl,
      ih, lookup_dictInsert, List.reverse_cons, lookup_append]
    rcases hl : List.lookup k rest.reverse with _ | val
    · rw [lookup_cons]
      by_cases hk : k = p.1 <;> simp [hk, Option.orElse]
    · simp [Option.orElse]

lemma linspace_length (a b : ℚ) : ∀ n : ℕ, (linspace a b n).length = n
  | 0 => rfl
  | 1 => rfl
  | n + 2 => by
      rw [show linspace a b (n + 2)
          = (List.range (n + 2)).map
            (fun i : ℕ => a + (i : ℚ) * ((b - a) / (((n + 2 : ℕ) : ℚ) - 1))) from rfl,
        List.length_map, List.length_range]

lemma raw_data_2d_pad (pad : Str) (data : List Str) (num_pos specLen : ℕ) :
    raw_data_2d (List.replicate num_headers pad ++ data) num_pos specLen
      = readGridList specLen data num_pos := by
  have h := List.drop_left (List.replicate num_headers pad) data
  rw [List.length_replicate] at h
  rw [raw_data_2d_eq_list, h]

lemma splitAux_ne_nil (sep : Str) :
    ∀ (fuel : ℕ) (s acc : Str), splitAux sep fuel s acc ≠ [] := by
  intro fuel
  induction fuel with
  | zero =>
    intro s acc
    cases s <;> simp [splitAux]
  | succ fuel ih =>
    intro s acc
    cases s with
    | nil => simp [splitAux]
    | cons c rest =>
      unfold splitAux
      by_cases hpre : sep.isPrefixOf (c :: rest) = true
      · simp [hpre]
      · rw [if_neg hpre]
        exact ih rest (c :: acc)

lemma pySplit_ne_nil (s sep : Str) : pySplit s sep ≠ [] :=
  splitAux_ne_nil sep s.length s []

lemma coerceValue_some {s : Str} {q : ℚ} (h : pyFloat? s = some q) :
    coerceValue s = if q.den = 1 then .int q.num else .float q := by
  unfold coerceValue
  rw [h]

lemma coerceValue_none {s : Str} (h : pyFloat? s = none) :
    coerceValue s = .str s := by
  unfold coerceValue
  rw [h]

/-! ### Claim theorems -/

/-- C1: for well-formed header values the numeric coercion maps "3.0" to
the integer 3, "3.5" to the float 3.5 = 7/2, and "abc" to the string
"abc"; in general, a value that parses as a float whose fractional part
is exactly zero (`(⌊q⌋ : ℚ) = q`) is stored as the integer `⌊q⌋`, one
with nonzero fractional part is stored as the float itself, and an
unparsable value is stored as the original trimmed string, unchanged. -/
theorem C1_numeric_coercion :
    coerceValue "3.0".data = HVal.int 3 ∧
    coerceValue "3.5".data = HVal.float (7 / 2) ∧
    coerceValue "abc".data = HVal.str "abc".data ∧
    (∀ (s : Str) (q : ℚ), pyFloat? s = some q → (⌊q⌋ : ℚ) = q →
      coerceValue s = HVal.int ⌊q⌋) ∧
    (∀ (s : Str) (q : ℚ), pyFloat? s = some q → (⌊q⌋ : ℚ) ≠ q →
      coerceValue s = HVal.float q) ∧
    (∀ s : Str, pyFloat? s = none → coerceValue s = HVal.str s) := by
  refine ⟨by decide, ?_, by decide, ?_, ?_, fun s h => coerceValue_none h⟩
  · have h : coerceValue "3.5".data = HVal.float (Rat.divInt 35 10) := by decide
    rw [h]
    congr 1
    rw [Rat.divInt_eq_div]
    norm_num
  · intro s q hq hfloor
    have hden : q.den = 1 := by
      have hi : q = ((⌊q⌋ : ℤ) : ℚ) := hfloor.symm
      rw [hi, Rat.intCast_den]
    rw [coerceValue_some hq, if_pos hden]
    have hnum : (q.num : ℚ) = ((⌊q⌋ : ℤ) : ℚ) := by
      rw [Rat.coe_int_num_of_den_eq_one hden, hfloor]
    have hn : q.num = ⌊q⌋ := by exact_mod_cast hnum
    rw [hn]
  · intro s q hq hfloor
    rw [coerceValue_some hq, if_neg]
    intro hden
    apply hfloor
    have h1 : (q.num : ℚ) = q := Rat.coe_int_num_of_den_eq_one hden
    rw [← h1, Int.floor_intCast]

/-- Witness for C1 at the concrete inputs "7.0", "7.5" and "x". -/
theorem C1_numeric_coercion_witness :
    (pyFloat? "7.0".data = some 7 ∧ ((⌊(7 : ℚ)⌋ : ℚ) = 7) ∧
      coerceValue "7.0".data = HVal.int ⌊(7 : ℚ)⌋) ∧
    (pyFloat? "7.5".data = some (Rat.divInt 75 10) ∧
      ((⌊Rat.divInt 75 10⌋ : ℚ) ≠ Rat.divInt 75 10) ∧
      coerceValue "7.5".data = HVal.float (Rat.divInt 75 10)) ∧
    (pyFloat? "x".data = none ∧ coerceValue "x".data = HVal.str "x".data) :=
  ⟨⟨by decide, by norm_num,
    C1_numeric_coercion.2.2.2.1 "7.0".data 7 (by decide) (by norm_num)⟩,
   ⟨by decide, by decide,
    C1_numeric_coercion.2.2.2.2.1 "7.5".data (Rat.divInt 75 10) (by decide) (by decide)⟩,
   ⟨by decide, C1_numeric_coercion.2.2.2.2.2 "x".data (by decide)⟩⟩

/-- C10: the grid reader discards the final tab-separated token of every
data line unconditionally (`string_spectrum` is the split minus its last
token, whether or not that token is a trailing-delimiter artifact): every
value a stored row holds is the parse of one of the non-final tokens, and
for the line `0\t1\t2\t3\t4` (no trailing tab, all five tokens numeric)
the final numeric value 4 is never stored. -/
theorem C10_final_token_discarded :
    (∀ l : Str, string_spectrum l = (pySplit l ['\t']).dropLast) ∧
    (∀ (l : Str) (specLen : ℕ) (vals : List ℚ), readRow l specLen = .ok vals →
      ∀ x ∈ vals, ∃ t ∈ string_spectrum l, pyFloat? t = some x) ∧
    readRow "0\t1\t2\t3\t4".data 4 = .ok [0, 1, 2, 3] ∧
    (∀ (specLen : ℕ) (vals : List ℚ),
      readRow "0\t1\t2\t3\t4".data specLen = .ok vals → (4 : ℚ) ∉ vals) := by
  have hstored : ∀ (l : Str) (specLen : ℕ) (vals : List ℚ), readRow l specLen = .ok vals →
      ∀ x ∈ vals, ∃ t ∈ string_spectrum l, pyFloat? t = some x := by
    intro l specLen vals h x hx
    obtain ⟨vs, hvs, hcase⟩ := readRow_ok_cases h
    rcases hcase with rfl | ⟨v, rfl, rfl⟩
    · exact mapOpt_mem hvs x hx
    · rw [List.eq_of_mem_replicate hx]
      exact mapOpt_mem hvs v (List.mem_singleton.mpr rfl)
  refine ⟨fun l => rfl, hstored, by decide, ?_⟩
  intro specLen vals h h4
  obtain ⟨t, ht, hpt⟩ := hstored _ specLen vals h 4 h4
  have hnone : ∀ t ∈ string_spectrum "0\t1\t2\t3\t4".data, pyFloat? t ≠ some 4 := by decide
  exact hnone t ht hpt

/-- Witness for C10 at the concrete line `0\t1\t2\t3\t4`. -/
theorem C10_final_token_discarded_witness :
    (readRow "0\t1\t2\t3\t4".data 4 = .ok [0, 1, 2, 3] ∧
      (∃ t ∈ string_spectrum "0\t1\t2\t3\t4".data, pyFloat? t = some 3)) ∧
    (4 : ℚ) ∉ ([0, 1, 2, 3] : List ℚ) :=
  ⟨⟨by decide,
    C10_final_token_discarded.2.1 "0\t1\t2\t3\t4".data 4 [0, 1, 2, 3] (by decide) 3 (by decide)⟩,
   C10_final_token_discarded.2.2.2 4 [0, 1, 2, 3] (by decide)⟩

/-- C5 (counterexample): a header line lacking `=` makes the parser fail
with a bare `IndexError` (from `temp[1]`), not a MalformedHeaderLine
error identifying the line's position: two inputs whose offending lines
sit at different positions of the parsed range (position 0 versus
position 1) produce identical error values, so the error identifies no
position. -/
theorem C5_counterexample :
    parm_dict (List.replicate 3 [] ++ ["nodelim\n".data, "# a = 1\n".data])
      = .err .indexError ∧
    parm_dict (List.replicate 3 [] ++ ["# a = 1\n".data, "nodelim\n".data])
      = .err .indexError ∧
    parm_dict (List.replicate 3 [] ++ ["nodelim\n".data, "# a = 1\n".data])
      = parm_dict (List.replicate 3 [] ++ ["# a = 1\n".data, "nodelim\n".data]) := by
  exact ⟨by decide, by decide, by decide⟩

/-- C5 (amended): whenever some line of the parsed range `lines[3:17]`
contains no `=` after cleaning, the header parser fails — but with a bare
`IndexError` carrying no positional information, rather than a
MalformedHeaderLine error identifying the offending line. -/
theorem C5_missing_eq_fails (string_lines : List Str)
    (h : ∃ l ∈ headerLines string_lines,
      (pySplit (cleanedLine l) ['=']).length = 1) :
    parm_dict string_lines = .err .indexError := by
  apply parmDictAux_err_of_mem
  rcases h with ⟨l, hmem, hlen⟩
  exact ⟨l, hmem, parseHeaderLine_err_of_no_eq hlen⟩

/-- Witness for C5 at a concrete range whose first parsed line lacks `=`. -/
theorem C5_missing_eq_fails_witness :
    (∃ l ∈ headerLines (List.replicate 3 [] ++ ["nodelim\n".data]),
      (pySplit (cleanedLine l) ['=']).length = 1) ∧
    parm_dict (List.replicate 3 [] ++ ["nodelim\n".data]) = .err .indexError :=
  ⟨⟨"nodelim\n".data, by decide, by decide⟩,
   C5_missing_eq_fails _ ⟨"nodelim\n".data, by decide, by decide⟩⟩

/-- C6 (counterexample): the header parser does not keep the full text
after the first `=`: the line `# mode = a=b\n` is split on every `=` and
only the piece between the first and second `=` is kept, so the stored
value is the string "a", not "a=b". -/
theorem C6_counterexample :
    parseHeaderLine "# mode = a=b\n".data = .ok ("mode".data, .str "a".data) ∧
    HVal.str "a".data ≠ HVal.str "a=b".data := by
  exact ⟨by decide, by decide⟩

/-- C6 (amended): the header parser strips every occurrence of the
comment marker `# ` and every newline, splits the remainder on every `=`,
and stores the trimmed piece before the first `=` as key and the value
coerced from the trimmed piece between the first and the second `=` as
value; pieces after a second `=` are discarded, so a value containing `=`
is truncated at the second `=`. -/
theorem C6_header_split (line : Str) (k v : Str) (rest : List Str)
    (h : pySplit (cleanedLine line) ['='] = k :: v :: rest) :
    parseHeaderLine line = .ok (pyStrip k, coerceValue (pyStrip v)) := by
  simp [parseHeaderLine, h]

/-- Witness for C6 at the concrete line `# mode = on\n`. -/
theorem C6_header_split_witness :
    pySplit (cleanedLine "# mode = on\n".data) ['=']
      = "mode ".data :: " on".data :: [] ∧
    parseHeaderLine "# mode = on\n".data
      = .ok (pyStrip "mode ".data, coerceValue (pyStrip " on".data)) :=
  ⟨by decide, C6_header_split "# mode = on\n".data "mode ".data " on".data [] (by decide)⟩

/-- C8: when the parsed range contains a key on more than one line, the
header parse succeeds (when every line parses) and the resulting dict
holds, for every key, the value coerced from the last occurrence — the
silent last-write-wins policy of `parm_dict[temp[0].strip()] = test`,
applied uniformly: looking a key up in the final dict equals looking it
up in the reversed list of parsed `(key, value)` pairs. -/
theorem C8_duplicate_keys_last_write_wins (string_lines : List Str)
    (ps : List (Str × HVal))
    (h : parseHeaderLines (headerLines string_lines) = .ok ps) :
    parm_dict string_lines = .ok (dictOfPairs [] ps) ∧
    ∀ k : Str, List.lookup k (dictOfPairs [] ps) = List.lookup k ps.reverse := by
  constructor
  · rw [parm_dict, parmDictAux_eq_parseHeaderLines, h]
  · intro k
    rw [lookup_dictOfPairs]
    rcases hl : List.lookup k ps.reverse with _ | val <;> simp [Option.orElse]

/-- Witness for C8 at a concrete range with a duplicated key `a`. -/
theorem C8_duplicate_keys_last_write_wins_witness :
    parseHeaderLines (headerLines (List.replicate 3 [] ++ ["# a = 1\n".data, "# a = 2\n".data]))
      = .ok [("a".data, .int 1), ("a".data, .int 2)] ∧
    parm_dict (List.replicate 3 [] ++ ["# a = 1\n".data, "# a = 2\n".data])
      = .ok (dictOfPairs [] [("a".data, .int 1), ("a".data, .int 2)]) ∧
    List.lookup "a".data (dictOfPairs [] [("a".data, .int 1), ("a".data, .int 2)])
      = List.lookup "a".data ([("a".data, .int 1), ("a".data, .int 2)].reverse) :=
  ⟨by decide,
   (C8_duplicate_keys_last_write_wins (List.replicate 3 [] ++ ["# a = 1\n".data, "# a = 2\n".data])
     [("a".data, .int 1), ("a".data, .int 2)] (by decide)).1,
   (C8_duplicate_keys_last_write_wins (List.replicate 3 [] ++ ["# a = 1\n".data, "# a = 2\n".data])
     [("a".data, .int 1), ("a".data, .int 2)] (by decide)).2 "a".data⟩

/-- C2 (counterexample): for `num_rows = 10`, `num_cols = 10`,
`spectral_length = 5` and a well-formed data block of only 50 rows, the
grid reader does not yield a `[100, 5]` array: it raises `IndexError`,
since `num_positions = 100` rows are read. -/
theorem C2_counterexample :
    raw_data_2d
        (List.replicate num_headers [] ++ List.replicate 50 "1\t2\t3\t4\t5\t\n".data)
        (10 * 10) 5
      = .err .indexError := by
  rw [raw_data_2d_pad]
  apply readGridList_short
  · intro l hl
    rw [List.eq_of_mem_replicate hl]
    exact ⟨[1, 2, 3, 4, 5], by decide⟩
  · rw [List.length_replicate]
    omega

/-- C2 (amended): for `num_rows = 10`, `num_cols = 10`,
`spectral_length = 5` and a well-formed data block of 100 rows following
the 403-line header, the grid reader yields a `[100, 5]` array whose
element `(i, j)` is exactly the parse of token `j` of data line `i`. -/
theorem C2_grid_10x10x5 (pad : Str) (data : List Str)
    (hlen : data.length = 100)
    (hrows : ∀ l ∈ data, ∃ vs, mapOpt pyFloat? (string_spectrum l) = some vs ∧ vs.length = 5) :
    ∃ g, raw_data_2d (List.replicate num_headers pad ++ data) (10 * 10) 5 = .ok g ∧
      g.length = 100 ∧ (∀ r ∈ g, r.length = 5) ∧
      ∀ i j : ℕ, (g[i]?.bind fun r => r[j]?)
        = (data[i]?.bind fun l => ((string_spectrum l)[j]?.bind pyFloat?)) := by
  have hf : ∀ l ∈ data, readRow l 5 = .ok ((mapOpt pyFloat? (string_spectrum l)).getD []) := by
    intro l hl
    obtain ⟨vs, hvs, hlen5⟩ := hrows l hl
    rw [readRow_some_eq hvs, hvs]
    unfold rowAssign
    simp [hlen5]
  have htake : data.take 100 = data := by
    rw [← hlen, List.take_length]
  have hok : readGridList 5 data (10 * 10)
      = .ok (data.map (fun l => (mapOpt pyFloat? (string_spectrum l)).getD [])) := by
    have hrows' : ∀ l ∈ data.take (10 * 10),
        readRow l 5 = .ok ((mapOpt pyFloat? (string_spectrum l)).getD []) := by
      intro l hl
      apply hf
      rw [show (10 : ℕ) * 10 = 100 from rfl, htake] at hl
      exact hl
    have h := readGridList_ok_map 5 (fun l => (mapOpt pyFloat? (string_spectrum l)).getD [])
      data (10 * 10) (by omega) hrows'
    rw [h, show (10 : ℕ) * 10 = 100 from rfl, htake]
  refine ⟨data.map (fun l => (mapOpt pyFloat? (string_spectrum l)).getD []), ?_, ?_, ?_, ?_⟩
  · rw [raw_data_2d_pad, hok]
  · rw [List.length_map, hlen]
  · intro r hr
    obtain ⟨l, hl, hrl⟩ := List.mem_map.mp hr
    obtain ⟨vs, hvs, hlen5⟩ := hrows l hl
    rw [← hrl, hvs]
    simpa using hlen5
  · intro i j
    rw [List.getElem?_map]
    rcases hi : data[i]? with _ | l
    · simp
    · have hl : l ∈ data := List.getElem?_mem hi
      obtain ⟨vs, hvs, _⟩ := hrows l hl
      simp only [Option.map_some', Option.some_bind]
      rw [hvs]
      simp only [Option.getD_some]
      exact mapOpt_some_getElem? hvs j

/-- Witness for C2 (amended) at a 100-row block of identical well-formed
lines. -/
theorem C2_grid_10x10x5_witness :
    ((List.replicate 100 "1\t2\t3\t4\t5\t\n".data : List Str).length = 100 ∧
      (∀ l ∈ (List.replicate 100 "1\t2\t3\t4\t5\t\n".data : List Str),
        ∃ vs, mapOpt pyFloat? (string_spectrum l) = some vs ∧ vs.length = 5)) ∧
    (∃ g, raw_data_2d
        (List.replicate num_headers [] ++ List.replicate 100 "1\t2\t3\t4\t5\t\n".data)
        (10 * 10) 5 = .ok g ∧
      g.length = 100 ∧ (∀ r ∈ g, r.length = 5) ∧
      ∀ i j : ℕ, (g[i]?.bind fun r => r[j]?)
        = ((List.replicate 100 "1\t2\t3\t4\t5\t\n".data : List Str)[i]?.bind
            fun l => ((string_spectrum l)[j]?.bind pyFloat?))) :=
  ⟨⟨by decide, fun l hl => by
      rw [List.eq_of_mem_replicate hl]
      exact ⟨[1, 2, 3, 4, 5], by decide, by decide⟩⟩,
   C2_grid_10x10x5 [] (List.replicate 100 "1\t2\t3\t4\t5\t\n".data) (by decide)
     (fun l hl => by
       rw [List.eq_of_mem_replicate hl]
       exact ⟨[1, 2, 3, 4, 5], by decide, by decide⟩)⟩

/-- C4 (counterexample): no DimensionMismatch is raised when the actual
number of data rows exceeds `num_rows * num_cols`: with
`num_rows * num_cols = 1` and two well-formed data rows the grid reader
succeeds, silently ignoring the extra row. -/
theorem C4_counterexample :
    raw_data_2d (List.replicate num_headers [] ++ ["1\t\n".data, "2\t\n".data]) (1 * 1) 1
      = .ok [[1]] := by
  rw [raw_data_2d_pad]
  decide

/-- C4 (amended): the grid reader fails with a bare `IndexError` when all
available data rows are readable but fewer than `num_positions` are
available; it fails with a bare `ValueError` when, enough rows being
available, some row among the first `num_positions` has a non-numeric
token or a token count that is neither `spectra_length` nor 1 (no named
error types, no row/column/token report exist); a single-token row is
broadcast by the numpy row assignment across the whole `spectra_length`
row and succeeds; and when the first `num_positions` rows are readable
the reader succeeds even if more data rows are available — extra rows are
ignored without error. -/
theorem C4_grid_reader_errors (pad : Str) (data : List Str) (num_pos specLen : ℕ) :
    ((∀ l ∈ data, ∃ r, readRow l specLen = .ok r) → data.length < num_pos →
      raw_data_2d (List.replicate num_headers pad ++ data) num_pos specLen
        = .err .indexError) ∧
    (num_pos ≤ data.length →
      (∃ l ∈ data.take num_pos,
        mapOpt pyFloat? (string_spectrum l) = none ∨
        ∃ vs, mapOpt pyFloat? (string_spectrum l) = some vs ∧
          vs.length ≠ specLen ∧ vs.length ≠ 1) →
      raw_data_2d (List.replicate num_headers pad ++ data) num_pos specLen
        = .err .valueError) ∧
    (∀ (l : Str) (v : ℚ), mapOpt pyFloat? (string_spectrum l) = some [v] →
      readRow l specLen = .ok (List.replicate specLen v)) ∧
    ((∀ l ∈ data.take num_pos, ∃ r, readRow l specLen = .ok r) →
      num_pos ≤ data.length →
      ∃ g, raw_data_2d (List.replicate num_headers pad ++ data) num_pos specLen
        = .ok g) := by
  refine ⟨?_, ?_, ?_, ?_⟩
  · intro hrows hlen
    rw [raw_data_2d_pad]
    exact readGridList_short hrows hlen
  · intro hlen hbad
    rw [raw_data_2d_pad]
    apply readGridList_badrow hlen
    rcases hbad with ⟨l, hmem, hcond⟩
    exact ⟨l, hmem, readRow_err_of_bad hcond⟩
  · intro l v hv
    exact readRow_broadcast specLen hv
  · intro hrows hlen
    refine ⟨(data.take num_pos).map
      (fun l => match readRow l specLen with | .ok r => r | .err _ => []), ?_⟩
    rw [raw_data_2d_pad]
    apply readGridList_ok_map specLen _ data num_pos hlen
    intro l hl
    obtain ⟨r, hr⟩ := hrows l hl
    show readRow l specLen
      = .ok (match readRow l specLen with | .ok r => r | .err _ => [])
    rw [hr]

/-- Witness for C4 (amended): truncation, a non-numeric row, a
wrong-count row, a broadcast single-token row, and extra rows, each at a
concrete input. -/
theorem C4_grid_reader_errors_witness :
    raw_data_2d (List.replicate num_headers [] ++ []) 1 1 = .err .indexError ∧
    raw_data_2d (List.replicate num_headers [] ++ ["x\t\n".data]) 1 1 = .err .valueError ∧
    raw_data_2d (List.replicate num_headers [] ++ ["1\t2\t\n".data]) 1 3 = .err .valueError ∧
    readRow "7\t\n".data 3 = .ok (List.replicate 3 7) ∧
    ∃ g, raw_data_2d (List.replicate num_headers [] ++ ["1\t\n".data, "2\t\n".data]) 1 1
      = .ok g :=
  ⟨(C4_grid_reader_errors [] [] 1 1).1
     (fun l hl => absurd hl (List.not_mem_nil l)) (by decide),
   (C4_grid_reader_errors [] ["x\t\n".data] 1 1).2.1 (by decide)
     ⟨"x\t\n".data, by decide, Or.inl (by decide)⟩,
   (C4_grid_reader_errors [] ["1\t2\t\n".data] 1 3).2.1 (by decide)
     ⟨"1\t2\t\n".data, by decide, Or.inr ⟨[1, 2], by decide, by decide, by decide⟩⟩,
   (C4_grid_reader_errors [] [] 1 3).2.2.1 "7\t\n".data 7 (by decide),
   (C4_grid_reader_errors [] ["1\t\n".data, "2\t\n".data] 1 1).2.2.2
     (fun l hl => by
       rw [show (["1\t\n".data, "2\t\n".data] : List Str).take 1 = ["1\t\n".data] from rfl] at hl
       rw [List.mem_singleton.mp hl]
       exact ⟨[1], by decide⟩)
     (by decide)⟩

/-- C7: when the grid read succeeds, the raw grid has exactly
`num_rows * num_cols` rows, every row has length `spectra_length`, and
the spectroscopic axis also has length `spectra_length` — all three
simultaneously. -/
theorem C7_dimension_invariants (string_lines : List Str)
    (num_rows num_cols spectra_length : ℕ) (maxV : ℚ) (g : List (List ℚ))
    (h : raw_data_2d string_lines (num_rows * num_cols) spectra_length = .ok g) :
    g.length = num_rows * num_cols ∧ (∀ r ∈ g, r.length = spectra_length) ∧
    (volt_vec maxV spectra_length).length = spectra_length := by
  rw [raw_data_2d_eq_list] at h
  obtain ⟨h1, h2⟩ := readGridList_ok_shape h
  exact ⟨h1, h2, linspace_length _ _ _⟩

/-- Witness for C7 at a concrete successful 1-by-2 grid with
spectra_length 2. -/
theorem C7_dimension_invariants_witness :
    raw_data_2d (List.replicate num_headers [] ++ ["1\t2\t\n".data, "3\t4\t\n".data]) (1 * 2) 2
      = .ok [[1, 2], [3, 4]] ∧
    ([[1, 2], [3, 4]] : List (List ℚ)).length = 1 * 2 ∧
    (∀ r ∈ ([[1, 2], [3, 4]] : List (List ℚ)), r.length = 2) ∧
    (volt_vec 1 2).length = 2 :=
  have h : raw_data_2d (List.replicate num_headers [] ++ ["1\t2\t\n".data, "3\t4\t\n".data])
      (1 * 2) 2 = .ok [[1, 2], [3, 4]] := by
    rw [raw_data_2d_pad]; decide
  ⟨h, (C7_dimension_invariants _ 1 2 2 1 _ h).1,
   (C7_dimension_invariants _ 1 2 2 1 _ h).2.1,
   (C7_dimension_invariants _ 1 2 2 1 _ h).2.2⟩

/-- C3 (counterexample): for `max_v = 1 > 0` and `spectral_length = 1`
the axis is the single value `-1 * max_v`, so its last element is
`-max_v`, not `+max_v` as claimed for every spectral_length. -/
theorem C3_counterexample :
    volt_vec 1 1 = [-1 * 1] ∧ (volt_vec 1 1).getLast? = some (-1 * 1) ∧
    (-1 * 1 : ℚ) ≠ 1 := by
  refine ⟨rfl, rfl, by norm_num⟩

/-- C3 (amended): for `max_v > 0` and `spectral_length ≥ 2` the
spectroscopic axis is strictly increasing, its first element is exactly
`-max_v` and its last element is exactly `+max_v`. -/
theorem C3_spectroscopic_axis (maxV : ℚ) (n : ℕ) (hm : 0 < maxV) (hn : 2 ≤ n) :
    (volt_vec maxV n).Pairwise (· < ·) ∧
    (volt_vec maxV n).head? = some (-maxV) ∧
    (volt_vec maxV n).getLast? = some maxV := by
  obtain ⟨k, rfl⟩ : ∃ k, n = k + 2 := ⟨n - 2, by omega⟩
  have hvv : volt_vec maxV (k + 2)
      = (List.range (k + 2)).map
          (fun i : ℕ => (-1 * maxV)
            + (i : ℚ) * (((1 * maxV) - (-1 * maxV)) / (((k + 2 : ℕ) : ℚ) - 1))) := rfl
  have hden : (((k + 2 : ℕ) : ℚ) - 1) = ((k + 1 : ℕ) : ℚ) := by
    push_cast
    ring
  have hdenpos : (0 : ℚ) < (((k + 2 : ℕ) : ℚ) - 1) := by
    rw [hden]
    positivity
  have hstep : (0 : ℚ) < ((1 * maxV) - (-1 * maxV)) / (((k + 2 : ℕ) : ℚ) - 1) := by
    apply div_pos _ hdenpos
    linarith
  refine ⟨?_, ?_, ?_⟩
  · rw [hvv, List.pairwise_map]
    apply (List.pairwise_lt_range (k + 2)).imp
    intro i j hij
    have hc : (i : ℚ) < (j : ℚ) := by exact_mod_cast hij
    have := mul_lt_mul_of_pos_right hc hstep
    linarith
  · rw [hvv, List.head?_eq_getElem?, List.getElem?_map,
      List.getElem?_range (by omega : 0 < k + 2)]
    simp only [Option.map_some']
    congr 1
    push_cast
    ring
  · rw [hvv, List.getLast?_eq_getElem?, List.length_map, List.length_range,
      List.getElem?_map, List.getElem?_range (by omega : k + 2 - 1 < k + 2)]
    simp only [Option.map_some']
    congr 1
    rw [show (k + 2 - 1 : ℕ) = k + 1 from by omega, hden]
    have hne : ((k + 1 : ℕ) : ℚ) ≠ 0 := by positivity
    field_simp

/-- Witness for C3 (amended) at `max_v = 1`, `spectral_length = 3`. -/
theorem C3_spectroscopic_axis_witness :
    (0 : ℚ) < 1 ∧ 2 ≤ 3 ∧
    ((volt_vec 1 3).Pairwise (· < ·) ∧
      (volt_vec 1 3).head? = some (-1) ∧
      (volt_vec 1 3).getLast? = some 1) :=
  ⟨by norm_num, by omega, C3_spectroscopic_axis 1 3 (by norm_num) (by omega)⟩

/-- C9: the pipeline is deterministic: two runs on identical source text
with the same `max_v`, `scan_height`, `scan_width` produce identical
Raw_Data grid contents, Position_Values contents and
Spectroscopic_Values contents, element for element. -/
theorem C9_pipeline_deterministic (s1 s2 : List Str) (maxV scanH scanW : ℚ)
    (h : s1 = s2)
    (g1 g2 : List (List ℚ)) (p1 p2 : List (ℚ × ℚ)) (v1 v2 : List ℚ)
    (h1 : pipeline s1 maxV scanH scanW = .ok (g1, p1, v1))
    (h2 : pipeline s2 maxV scanH scanW = .ok (g2, p2, v2)) :
    g1 = g2 ∧ p1 = p2 ∧ v1 = v2 := by
  rw [h, h2] at h1
  injection h1 with h3
  injection h3 with hg h4
  injection h4 with hp hv
  exact ⟨hg.symm, hp.symm, hv.symm⟩

set_option maxRecDepth 100000 in
/-- Witness for C9 at a concrete 405-line source whose translation
succeeds. -/
theorem C9_pipeline_deterministic_witness :
    pipeline
        (List.replicate 3 [] ++ ["# x-pixels = 2\n".data, "# y-pixels = 1\n".data,
          "# z-points = 2\n".data] ++ List.replicate 11 "# f = 0\n".data
          ++ List.replicate 386 [] ++ ["1\t2\t\n".data, "3\t4\t\n".data])
        1 100 200
      = .ok ([[1, 2], [3, 4]], position_values 1 2 200 100, volt_vec 1 2) ∧
    (([[1, 2], [3, 4]] : List (List ℚ)) = [[1, 2], [3, 4]] ∧
      position_values 1 2 200 100 = position_values 1 2 200 100 ∧
      volt_vec 1 2 = volt_vec 1 2) :=
  have hpl : pipeline
      (List.replicate 3 [] ++ ["# x-pixels = 2\n".data, "# y-pixels = 1\n".data,
        "# z-points = 2\n".data] ++ List.replicate 11 "# f = 0\n".data
        ++ List.replicate 386 [] ++ ["1\t2\t\n".data, "3\t4\t\n".data])
      1 100 200
      = .ok ([[1, 2], [3, 4]], position_values 1 2 200 100, volt_vec 1 2) := by rfl
  ⟨hpl, C9_pipeline_deterministic _ _ 1 100 200 rfl _ _ _ _ _ _ hpl hpl⟩
